import Mathlib

/-!
Shallow embedding of the KVM PowerPC real-mode TCE (I/O translation table)
hypercall layer (arch/powerpc/kvm/book3s_64_vio_hv.c) and of the virtual-core
exit coordinator (arch/powerpc/kvm/book3s_hv_builtin.c), together with
theorems settling the specification claims about them.

Machine integers (C `unsigned long`, `u64`) are modelled as `Nat`; all the
values handled by this code fit in 64 bits and no claim hinges on wrap-around,
so arithmetic is exact except where a 64-bit complement is taken, which is
modelled explicitly (`compl64`).  External collaborators (the pinned-memory
registry, the memory-slot resolver, the device-group exchange primitive) are
modelled as oracle functions in an `Env` record, following the interface the
spec gives for them in section 6; the mutable data they act on (hardware
translation entries, userspace-address slots, mapping counters, the TCE entry
store) live in a `World` record.  Operations additionally return a trace of
`Ev` events so that ordering claims (reference-count sequencing, "returns
before reading the list") can be stated.
-/

/-- Modelled from the spec: the two independent direction flag bits of a
translation entry ("read-permitted"); the header defining TCE_PCI_READ is not
part of the sources, the spec fixes two low flag bits below the page mask. -/
def TCE_PCI_READ : Nat := 1

/-- Modelled from the spec: the "write-permitted" direction flag bit. -/
def TCE_PCI_WRITE : Nat := 2

/-- 64-bit complement, used where the C code complements an unsigned long. -/
def compl64 (x : Nat) : Nat := (2 ^ 64 - 1) ^^^ x

/-- PAGE_SIZE with 4K base pages (kernel configuration constant). -/
def PAGE_SIZE : Nat := 4096

/-- TCES_PER_PAGE = PAGE_SIZE / sizeof(u64), from book3s_64_vio_hv.c. -/
def TCES_PER_PAGE : Nat := PAGE_SIZE / 8

/-- Hypercall return classes: H_SUCCESS, H_PARAMETER, H_TOO_HARD, H_HARDWARE.
The dispatcher only ever tests these for equality with success. -/
inductive HRet where
  | success
  | parameter
  | tooHard
  | hardware
deriving DecidableEq

/-- enum dma_data_direction, as far as this code observes it. -/
inductive DmaDir where
  | bidirectional
  | toDevice
  | fromDevice
  | none
deriving DecidableEq

/-- Modelled from the spec: direction of a translation entry is determined by
the two flag bits; both clear means "none" (logically cleared).  The helper
iommu_tce_direction lives in a header outside the sources. -/
def iommu_tce_direction (tce : Nat) : DmaDir :=
  if tce &&& TCE_PCI_READ ≠ 0 ∧ tce &&& TCE_PCI_WRITE ≠ 0 then DmaDir.bidirectional
  else if tce &&& TCE_PCI_READ ≠ 0 then DmaDir.toDevice
  else if tce &&& TCE_PCI_WRITE ≠ 0 then DmaDir.fromDevice
  else DmaDir.none

/-- struct kvmppc_spapr_tce_table: geometry of one guest-visible translation
table plus the identifiers of the iommu tables of its attached device groups
(kg->tbl for kg in stt->groups, in traversal order). -/
structure Stt where
  liobn : Nat
  page_shift : Nat
  offset : Nat
  size : Nat
  groups : List Nat
deriving DecidableEq

/-- The page-array-backed entry store of one table: chunk index and
within-chunk slot to stored 64-bit value (stt->pages). -/
abbrev Store : Type := Nat → Nat → Nat

/-- Mutable state acted on by the real-mode path: per-iommu-table hardware
entries (hpa, direction), per-iommu-table userspace-address slots
(it_userspace; `Option.none` when the slot is absent or not addressable in
real mode), per-region mapping counters, and the entry store of the table
under consideration. -/
structure World where
  hw : Nat → Nat → Nat × DmaDir
  pua : Nat → Nat → Option Nat
  cnt : Nat → Nat
  store : Store

/-- Read-only oracles for the external collaborators (spec section 6):
pinned-memory registry lookup and address resolution, memory-slot gpa
resolution, host-page-table walk, guest memory words, and the outcomes of the
device-group collaborator's parameter checks, counter increment and exchange
primitive. -/
structure Env where
  it_page_shift : Nat → Nat
  lookup : Nat → Nat → Option Nat
  uaToHpa : Nat → Nat → Option Nat
  gpaToUa : Nat → Option Nat
  rmUaToHpa : Nat → Option Nat
  mem64 : Nat → Nat
  preregistered : Bool
  incOk : Nat → Bool
  xchgFail : Nat → Nat → Bool
  putParamOk : Nat → Nat → Nat → Bool
  clearParamOk : Nat → Nat → Nat → Nat → Bool

/-- Events recorded by the operations, for ordering/temporal claims. -/
inductive Ev where
  | inc (region : Nat)
  | dec (region : Nat)
  | xchg (tbl entry : Nat) (ok : Bool)
  | readList (i : Nat)
  | resolveList
deriving DecidableEq

def Ev.isInc : Ev → Bool
  | .inc _ => true
  | _ => false

def Ev.isDec : Ev → Bool
  | .dec _ => true
  | _ => false

def Ev.isXchg : Ev → Bool
  | .xchg _ _ _ => true
  | _ => false

def setHw (w : World) (t e : Nat) (v : Nat × DmaDir) : World :=
  { w with hw := fun x y => if x = t ∧ y = e then v else w.hw x y }

def setPua (w : World) (t e : Nat) (v : Option Nat) : World :=
  { w with pua := fun x y => if x = t ∧ y = e then v else w.pua x y }

def incCnt (w : World) (r : Nat) : World :=
  { w with cnt := fun x => if x = r then w.cnt x + 1 else w.cnt x }

def decCnt (w : World) (r : Nat) : World :=
  { w with cnt := fun x => if x = r then w.cnt x - 1 else w.cnt x }

/-- kvmppc_find_table: linear scan of the guest's table list by liobn. -/
def kvmppc_find_table (tables : List Stt) (liobn : Nat) : Option Stt :=
  tables.find? (fun stt => stt.liobn == liobn)

/-- kvmppc_ioba_validate, exactly as in the source: fails when ioba is
unaligned, when the index is below offset, or when
offset + size + npages <= idx. -/
def kvmppc_ioba_validate (stt : Stt) (ioba npages : Nat) : HRet :=
  let mask := (1 <<< stt.page_shift) - 1
  let idx := ioba >>> stt.page_shift
  if ioba &&& mask ≠ 0 ∨ idx < stt.offset ∨ stt.offset + stt.size + npages ≤ idx
  then HRet.parameter else HRet.success

/-- kvmppc_tce_validate: all bits below the page mask other than the two
direction flags must be clear. -/
def kvmppc_tce_validate (stt : Stt) (tce : Nat) : HRet :=
  let mask := ((1 <<< stt.page_shift) - 1) &&& compl64 (TCE_PCI_WRITE ||| TCE_PCI_READ)
  if tce &&& mask ≠ 0 then HRet.parameter else HRet.success

/-- kvmppc_tce_put: unconditional write into the chunk/slot computed from
idx - stt->offset. -/
def kvmppc_tce_put (stt : Stt) (store : Store) (idx tce : Nat) : Store :=
  let i := idx - stt.offset
  fun c s => if c = i / TCES_PER_PAGE ∧ s = i % TCES_PER_PAGE then tce else store c s

/-- kvmppc_h_get_tce: resolve the table, validate the address, read one entry
(returned in gpr[4], modelled as the optional second component). -/
def kvmppc_h_get_tce (tables : List Stt) (store : Store) (liobn ioba : Nat) :
    HRet × Option Nat :=
  match kvmppc_find_table tables liobn with
  | Option.none => (HRet.tooHard, Option.none)
  | Option.some stt =>
    if kvmppc_ioba_validate stt ioba 1 ≠ HRet.success then
      (kvmppc_ioba_validate stt ioba 1, Option.none)
    else
      let idx := (ioba >>> stt.page_shift) - stt.offset
      (HRet.success, Option.some (store (idx / TCES_PER_PAGE) (idx % TCES_PER_PAGE)))

/-- kvmppc_rm_tce_iommu_mapped_dec: an absent or untranslatable userspace
slot is tolerated as success; an available slot whose recorded address has no
owning region in the registry yields H_HARDWARE; otherwise the region's
mapping counter is decremented and the slot is cleared. -/
def kvmppc_rm_tce_iommu_mapped_dec (env : Env) (w : World) (tbl entry : Nat) :
    HRet × World × List Ev :=
  let pgsize := 1 <<< env.it_page_shift tbl
  match w.pua tbl entry with
  | Option.none => (HRet.success, w, [])
  | Option.some v =>
    match env.lookup v pgsize with
    | Option.none => (HRet.hardware, w, [])
    | Option.some r =>
      (HRet.success, setPua (decCnt w r) tbl entry (Option.some 0), [Ev.dec r])

/-- kvmppc_rm_tce_iommu_unmap: exchange in a cleared entry; if the old
direction was none we are done, otherwise retire the old mapping. -/
def kvmppc_rm_tce_iommu_unmap (env : Env) (w : World) (tbl entry : Nat) :
    HRet × World × List Ev :=
  if env.xchgFail tbl entry then (HRet.hardware, w, [Ev.xchg tbl entry false])
  else
    let old := w.hw tbl entry
    let w1 := setHw w tbl entry (0, DmaDir.none)
    if old.2 = DmaDir.none then (HRet.success, w1, [Ev.xchg tbl entry true])
    else
      let md := kvmppc_rm_tce_iommu_mapped_dec env w1 tbl entry
      (md.1, md.2.1, Ev.xchg tbl entry true :: md.2.2)

/-- kvmppc_rm_tce_iommu_map: resolve gpa to ua, find the owning region,
resolve the host physical address, require the userspace slot, increment the
region's mapping counter, perform the exchange (rolling the increment back on
failure), retire the old mapping when its direction was not none, and record
the new userspace address. -/
def kvmppc_rm_tce_iommu_map (env : Env) (w : World) (tbl entry gpa : Nat)
    (dir : DmaDir) : HRet × World × List Ev :=
  match env.gpaToUa gpa with
  | Option.none => (HRet.hardware, w, [])
  | Option.some ua =>
    match env.lookup ua (1 <<< env.it_page_shift tbl) with
    | Option.none => (HRet.hardware, w, [])
    | Option.some r =>
      match env.uaToHpa r ua with
      | Option.none => (HRet.hardware, w, [])
      | Option.some hpa =>
        match w.pua tbl entry with
        | Option.none => (HRet.hardware, w, [])
        | Option.some _ =>
          if env.incOk r = false then (HRet.hardware, w, [])
          else
            let w1 := incCnt w r
            if env.xchgFail tbl entry then
              (HRet.tooHard, decCnt w1 r,
                [Ev.inc r, Ev.xchg tbl entry false, Ev.dec r])
            else
              let old := w1.hw tbl entry
              let w2 := setHw w1 tbl entry (hpa, dir)
              let md := kvmppc_rm_tce_iommu_mapped_dec env w2 tbl entry
              let w3 := if old.2 = DmaDir.none then w2 else md.2.1
              let evs3 := if old.2 = DmaDir.none then ([] : List Ev) else md.2.2
              (HRet.success, setPua w3 tbl entry (Option.some ua),
                Ev.inc r :: Ev.xchg tbl entry true :: evs3)

/-- kvmppc_rm_h_put_tce_iommu: clear (unmap) when the entry's direction is
none, otherwise map, each guarded by the collaborator's parameter check. -/
def kvmppc_rm_h_put_tce_iommu (env : Env) (w : World) (tbl liobn ioba tce : Nat) :
    HRet × World × List Ev :=
  let entry := ioba >>> env.it_page_shift tbl
  let gpa := tce &&& compl64 (TCE_PCI_READ ||| TCE_PCI_WRITE)
  let dir := iommu_tce_direction tce
  if dir = DmaDir.none then
    if env.clearParamOk tbl ioba 0 1 = false then (HRet.parameter, w, [])
    else kvmppc_rm_tce_iommu_unmap env w tbl entry
  else
    if env.putParamOk tbl ioba gpa = false then (HRet.parameter, w, [])
    else kvmppc_rm_tce_iommu_map env w tbl entry gpa dir

/-- First pass of kvmppc_rm_h_put_tce_indirect_iommu: check the target
address of every entry of the list against the device-group collaborator
before any mutation.  i is the running index, the second argument counts the
remaining entries. -/
def indirectCheckLoop (env : Env) (tbl ioba tces : Nat) : Nat → Nat → HRet × List Ev
  | _, 0 => (HRet.success, [])
  | i, Nat.succ n =>
    let gpa := env.mem64 (tces + 8 * i) &&& compl64 (TCE_PCI_READ ||| TCE_PCI_WRITE)
    if env.putParamOk tbl (ioba + (i <<< env.it_page_shift tbl)) gpa = false then
      (HRet.parameter, [Ev.readList i])
    else
      let res := indirectCheckLoop env tbl ioba tces (i + 1) n
      (res.1, Ev.readList i :: res.2)

/-- Second pass of kvmppc_rm_h_put_tce_indirect_iommu: map each entry,
aborting on the first failure. -/
def indirectMapLoop (env : Env) (tbl entry tces : Nat) :
    World → Nat → Nat → HRet × World × List Ev
  | w, _, 0 => (HRet.success, w, [])
  | w, i, Nat.succ n =>
    let tce := env.mem64 (tces + 8 * i)
    let gpa := tce &&& compl64 (TCE_PCI_READ ||| TCE_PCI_WRITE)
    let res := kvmppc_rm_tce_iommu_map env w tbl (entry + i) gpa (iommu_tce_direction tce)
    if res.1 ≠ HRet.success then (res.1, res.2.1, Ev.readList i :: res.2.2)
    else
      let res2 := indirectMapLoop env tbl entry tces res.2.1 (i + 1) n
      (res2.1, res2.2.1, (Ev.readList i :: res.2.2) ++ res2.2.2)

/-- kvmppc_rm_h_put_tce_indirect_iommu: validate-all pass for this one
device group, then the map pass. -/
def kvmppc_rm_h_put_tce_indirect_iommu (env : Env) (w : World)
    (tbl ioba tces npages : Nat) : HRet × World × List Ev :=
  let entry := ioba >>> env.it_page_shift tbl
  let chk := indirectCheckLoop env tbl ioba tces 0 npages
  if chk.1 ≠ HRet.success then (chk.1, w, chk.2)
  else
    let res := indirectMapLoop env tbl entry tces w 0 npages
    (res.1, res.2.1, chk.2 ++ res.2.2)

/-- kvmppc_rm_h_stuff_tce_iommu: parameter check, then unmap every index in
range (the unmap results are discarded, as in the source). -/
def stuffUnmapLoop (env : Env) (tbl entry : Nat) :
    World → Nat → Nat → World × List Ev
  | w, _, 0 => (w, [])
  | w, i, Nat.succ n =>
    let res := kvmppc_rm_tce_iommu_unmap env w tbl (entry + i)
    let res2 := stuffUnmapLoop env tbl entry res.2.1 (i + 1) n
    (res2.1, res.2.2 ++ res2.2)

def kvmppc_rm_h_stuff_tce_iommu (env : Env) (w : World)
    (tbl liobn ioba value npages : Nat) : HRet × World × List Ev :=
  let entry := ioba >>> env.it_page_shift tbl
  if env.clearParamOk tbl ioba value npages = false then (HRet.parameter, w, [])
  else
    let res := stuffUnmapLoop env tbl entry w 0 npages
    (HRet.success, res.1, res.2)

/-- The device-group traversal of kvmppc_rm_h_put_tce, with the tbltmp
dedup of consecutive identical iommu tables. -/
def putTceGroupsLoop (env : Env) (liobn ioba tce : Nat) :
    World → List Nat → Option Nat → HRet × World × List Ev
  | w, [], _ => (HRet.success, w, [])
  | w, g :: rest, tbltmp =>
    if tbltmp = Option.some g then putTceGroupsLoop env liobn ioba tce w rest tbltmp
    else
      let res := kvmppc_rm_h_put_tce_iommu env w g liobn ioba tce
      if res.1 ≠ HRet.success then res
      else
        let res2 := putTceGroupsLoop env liobn ioba tce res.2.1 rest (Option.some g)
        (res2.1, res2.2.1, res.2.2 ++ res2.2.2)

/-- kvmppc_rm_h_put_tce: resolve the table, validate ioba and the entry, run
every attached device group, and only then write the raw entry into the
entry store. -/
def kvmppc_rm_h_put_tce (env : Env) (w : World) (tables : List Stt)
    (liobn ioba tce : Nat) : HRet × World × List Ev :=
  match kvmppc_find_table tables liobn with
  | Option.none => (HRet.tooHard, w, [])
  | Option.some stt =>
    if kvmppc_ioba_validate stt ioba 1 ≠ HRet.success then
      (kvmppc_ioba_validate stt ioba 1, w, [])
    else if kvmppc_tce_validate stt tce ≠ HRet.success then
      (kvmppc_tce_validate stt tce, w, [])
    else
      let res := putTceGroupsLoop env liobn ioba tce w stt.groups Option.none
      if res.1 ≠ HRet.success then res
      else
        (res.1, { res.2.1 with
          store := kvmppc_tce_put stt res.2.1.store (ioba >>> stt.page_shift) tce },
          res.2.2)

/-- The device-group traversal of kvmppc_rm_h_put_tce_indirect. -/
def indirectGroupsLoop (env : Env) (ioba tces npages : Nat) :
    World → List Nat → Option Nat → HRet × World × List Ev
  | w, [], _ => (HRet.success, w, [])
  | w, g :: rest, tbltmp =>
    if tbltmp = Option.some g then indirectGroupsLoop env ioba tces npages w rest tbltmp
    else
      let res := kvmppc_rm_h_put_tce_indirect_iommu env w g ioba tces npages
      if res.1 ≠ HRet.success then res
      else
        let res2 := indirectGroupsLoop env ioba tces npages res.2.1 rest (Option.some g)
        (res2.1, res2.2.1, res.2.2 ++ res2.2.2)

/-- Final loop of kvmppc_rm_h_put_tce_indirect: validate each listed entry
and write it into the entry store, aborting (without rollback) on the first
validation failure. -/
def indirectFinalLoop (stt : Stt) (env : Env) (entry tces : Nat) :
    Store → Nat → Nat → HRet × Store × List Ev
  | st, _, 0 => (HRet.success, st, [])
  | st, i, Nat.succ n =>
    let tce := env.mem64 (tces + 8 * i)
    if kvmppc_tce_validate stt tce ≠ HRet.success then
      (kvmppc_tce_validate stt tce, st, [Ev.readList i])
    else
      let st1 := kvmppc_tce_put stt st (entry + i) tce
      let res := indirectFinalLoop stt env entry tces st1 (i + 1) n
      (res.1, res.2.1, Ev.readList i :: res.2.2)

/-- kvmppc_rm_h_put_tce_indirect: resolve the table; cap the list at 512
entries; require the list address 4K-aligned; validate the ioba range;
resolve the list page either through the pinned-memory registry
(preregistered) or through the host-page-table walk; run the per-group
validate+map passes (preregistered case); finally validate and store each
listed entry.  List-element reads and the list-address resolution are
recorded as events. -/
def kvmppc_rm_h_put_tce_indirect (env : Env) (w : World) (tables : List Stt)
    (liobn ioba tce_list npages : Nat) : HRet × World × List Ev :=
  match kvmppc_find_table tables liobn with
  | Option.none => (HRet.tooHard, w, [])
  | Option.some stt =>
    let entry := ioba >>> stt.page_shift
    if npages > 512 then (HRet.parameter, w, [])
    else if tce_list &&& 4095 ≠ 0 then (HRet.parameter, w, [])
    else if kvmppc_ioba_validate stt ioba npages ≠ HRet.success then
      (kvmppc_ioba_validate stt ioba npages, w, [])
    else if env.preregistered then
      match env.gpaToUa tce_list with
      | Option.none => (HRet.tooHard, w, [Ev.resolveList])
      | Option.some ua =>
        match env.lookup ua 4096 with
        | Option.none => (HRet.tooHard, w, [Ev.resolveList])
        | Option.some r =>
          match env.uaToHpa r ua with
          | Option.none => (HRet.tooHard, w, [Ev.resolveList])
          | Option.some tces =>
            let res := indirectGroupsLoop env ioba tces npages w stt.groups Option.none
            if res.1 ≠ HRet.success then (res.1, res.2.1, Ev.resolveList :: res.2.2)
            else
              let fin := indirectFinalLoop stt env entry tces res.2.1.store 0 npages
              (fin.1, { res.2.1 with store := fin.2.1 },
                Ev.resolveList :: (res.2.2 ++ fin.2.2))
    else
      match env.gpaToUa tce_list with
      | Option.none => (HRet.tooHard, w, [Ev.resolveList])
      | Option.some ua =>
        match env.rmUaToHpa ua with
        | Option.none => (HRet.tooHard, w, [Ev.resolveList])
        | Option.some tces =>
          let fin := indirectFinalLoop stt env entry tces w.store 0 npages
          (fin.1, { w with store := fin.2.1 }, Ev.resolveList :: fin.2.2)

/-- The device-group traversal of kvmppc_rm_h_stuff_tce. -/
def stuffGroupsLoop (env : Env) (liobn ioba value npages : Nat) :
    World → List Nat → Option Nat → HRet × World × List Ev
  | w, [], _ => (HRet.success, w, [])
  | w, g :: rest, tbltmp =>
    if tbltmp = Option.some g then stuffGroupsLoop env liobn ioba value npages w rest tbltmp
    else
      let res := kvmppc_rm_h_stuff_tce_iommu env w g liobn ioba value npages
      if res.1 ≠ HRet.success then res
      else
        let res2 := stuffGroupsLoop env liobn ioba value npages res.2.1 rest (Option.some g)
        (res2.1, res2.2.1, res.2.2 ++ res2.2.2)

/-- Final loop of kvmppc_rm_h_stuff_tce: overwrite the whole index range,
advancing ioba by one page per iteration as the source does. -/
def stuffPutLoop (stt : Stt) (value : Nat) : Store → Nat → Nat → Store
  | st, _, 0 => st
  | st, ioba, Nat.succ n =>
    stuffPutLoop stt value
      (kvmppc_tce_put stt st (ioba >>> stt.page_shift) value)
      (ioba + (1 <<< stt.page_shift)) n

/-- kvmppc_rm_h_stuff_tce: resolve, validate the range and the value (which
must carry no direction flags), unmap the range in every device group, then
overwrite the range in the entry store. -/
def kvmppc_rm_h_stuff_tce (env : Env) (w : World) (tables : List Stt)
    (liobn ioba value npages : Nat) : HRet × World × List Ev :=
  match kvmppc_find_table tables liobn with
  | Option.none => (HRet.tooHard, w, [])
  | Option.some stt =>
    if kvmppc_ioba_validate stt ioba npages ≠ HRet.success then
      (kvmppc_ioba_validate stt ioba npages, w, [])
    else if kvmppc_tce_validate stt value ≠ HRet.success ∨
        value &&& (TCE_PCI_WRITE ||| TCE_PCI_READ) ≠ 0 then
      (HRet.parameter, w, [])
    else
      let res := stuffGroupsLoop env liobn ioba value npages w stt.groups Option.none
      if res.1 ≠ HRet.success then res
      else
        (HRet.success,
          { res.2.1 with store := stuffPutLoop stt value res.2.1.store ioba npages },
          res.2.2)

/-- Modelled from the spec: the trap reason meaning every thread is already
unwinding (BOOK3S_INTERRUPT_HV_DECREMENTER; the interrupt-vector header is
not part of the sources, the numeric value is immaterial here). -/
def BOOK3S_INTERRUPT_HV_DECREMENTER : Nat := 2432

/-- Modelled from the spec: the "exit requested" marker ORed into another
subcore's entry_exit_map; any bit above the low byte makes that map's high
part nonzero (the constant lives in a header outside the sources). -/
def VCORE_EXIT_REQ : Nat := 65536

/-- kvmhv_interrupt_vcore: walk the active-thread bit mask, sending one IPI
per set bit to cpu = pcpu + bit position; returns the notified cpu list. -/
def ipiTargets (cpu active : Nat) : List Nat :=
  if h : active = 0 then []
  else
    (if active % 2 = 1 then [cpu] else []) ++ ipiTargets (cpu + 1) (active / 2)
termination_by active
decreasing_by
  exact Nat.div_lt_self (Nat.pos_of_ne_zero h) (by decide)

def kvmhv_interrupt_vcore (pcpu active : Nat) : List Nat :=
  ipiTargets pcpu active

/-- The split-mode tail of kvmhv_commence_exit: for each other subcore's
(entry_exit_map, pcpu), skip it if already marked exiting, otherwise mark it
with VCORE_EXIT_REQ and notify its active threads.  Returns the new map and
the cpus notified, per subcore. -/
def subExitLoop : List (Nat × Nat) → List (Nat × List Nat)
  | [] => []
  | (smap, spcpu) :: rest =>
    if smap >>> 8 ≠ 0 then (smap, []) :: subExitLoop rest
    else (smap ||| VCORE_EXIT_REQ, kvmhv_interrupt_vcore spcpu smap) :: subExitLoop rest

/-- kvmhv_commence_exit, single-caller sequential model.  eemap is the value
of vcore->entry_exit_map observed by the successful compare-and-exchange (the
acknowledgement bits before this thread's own update are its high byte).
Returns the new own entry_exit_map, the cpus of the caller's own vcore that
were sent an IPI, and the per-subcore results of the split-mode tail. -/
def kvmhv_commence_exit (eemap pcpu ptid trap : Nat)
    (sip : Option (List (Nat × Nat))) : Nat × List Nat × List (Nat × List Nat) :=
  let me := 256 <<< ptid
  let newMap := eemap ||| me
  if eemap >>> 8 ≠ 0 then (newMap, [], [])
  else
    let own :=
      if trap ≠ BOOK3S_INTERRUPT_HV_DECREMENTER then
        kvmhv_interrupt_vcore pcpu (eemap &&& compl64 (1 <<< ptid))
      else []
    match sip with
    | Option.none => (newMap, own, [])
    | Option.some subs => (newMap, own, subExitLoop subs)

/-- Default oracle environment for concrete instantiations. -/
def baseEnv : Env :=
  { it_page_shift := fun _ => 12,
    lookup := fun _ _ => Option.none,
    uaToHpa := fun _ _ => Option.none,
    gpaToUa := fun _ => Option.none,
    rmUaToHpa := fun _ => Option.none,
    mem64 := fun _ => 0,
    preregistered := false,
    incOk := fun _ => true,
    xchgFail := fun _ _ => false,
    putParamOk := fun _ _ _ => true,
    clearParamOk := fun _ _ _ _ => true }

/-- Default world for concrete instantiations: everything cleared, all
userspace slots available. -/
def baseWorld : World :=
  { hw := fun _ _ => (0, DmaDir.none),
    pua := fun _ _ => Option.some 0,
    cnt := fun _ => 0,
    store := fun _ _ => 0 }

def envC5 : Env :=
  { baseEnv with
    gpaToUa := fun g => Option.some g,
    lookup := fun _ _ => Option.some 5,
    uaToHpa := fun _ ua => Option.some ua }

def wC5 : World :=
  { baseWorld with
    hw := fun _ _ => (0, DmaDir.toDevice),
    pua := fun _ _ => Option.some 4096 }

def envC4 : Env :=
  { baseEnv with
    gpaToUa := fun g => Option.some g,
    lookup := fun _ _ => Option.some 5,
    uaToHpa := fun _ ua => Option.some ua }

def sttC4 : Stt := { liobn := 7, page_shift := 12, offset := 0, size := 4, groups := [1] }

def envC2 : Env :=
  { baseEnv with
    preregistered := true,
    gpaToUa := fun g => Option.some g,
    lookup := fun _ _ => Option.some 5,
    uaToHpa := fun _ ua => Option.some ua,
    mem64 := fun _ => 8193,
    putParamOk := fun tbl _ _ => tbl == 1 }

def sttC2 : Stt := { liobn := 9, page_shift := 12, offset := 0, size := 8, groups := [1, 2] }

def sttC9 : Stt := { liobn := 11, page_shift := 12, offset := 1, size := 8, groups := [1] }

/-! ## Theorems -/

theorem ioba_validate_success_iff (stt : Stt) (ioba npages : Nat) :
    kvmppc_ioba_validate stt ioba npages = HRet.success ↔
      (ioba &&& ((1 <<< stt.page_shift) - 1) = 0 ∧
       stt.offset ≤ ioba >>> stt.page_shift ∧
       ioba >>> stt.page_shift < stt.offset + stt.size + npages) := by
  simp only [kvmppc_ioba_validate]
  split
  next h =>
    constructor
    · intro hc; exact HRet.noConfusion hc
    · rintro ⟨h1, h2, h3⟩
      exfalso
      rcases h with h | h | h
      · exact h h1
      · omega
      · omega
  next h =>
    push_neg at h
    exact iff_of_true rfl ⟨h.1, by omega, by omega⟩

/-- C1 (code_bug evaluation): the claim requires ParameterError for every
ioba whose index lies outside [offset, offset + size); the code's bound check
is offset + size + npages <= idx, so on a table with offset 0 and size 4 the
out-of-range index 4 (ioba = 4 shifted by page_shift 12, npages = 1) is
accepted as SUCCESS.  The upstream kernel fixed exactly this comparison; the
spec states the intended check. -/
theorem C1_bound_check_accepts_out_of_range :
    kvmppc_ioba_validate
      { liobn := 1, page_shift := 12, offset := 0, size := 4, groups := [] }
      (4 <<< 12) 1 = HRet.success := by decide

/-- C8: after put(table, idx, v) with offset <= idx < offset + size and v
passing entry validation, Get on the same index succeeds and returns exactly
v: put and get use the same chunk/slot addressing. -/
theorem C8_put_get_roundtrip (stt : Stt) (store : Store) (idx v : Nat)
    (h1 : stt.offset ≤ idx) (h2 : idx < stt.offset + stt.size)
    (h3 : kvmppc_tce_validate stt v = HRet.success) :
    kvmppc_h_get_tce [stt] (kvmppc_tce_put stt store idx v) stt.liobn
      (idx <<< stt.page_shift) = (HRet.success, Option.some v) := by
  have hfind : kvmppc_find_table [stt] stt.liobn = Option.some stt := by
    simp [kvmppc_find_table, List.find?]
  have hsr : (idx <<< stt.page_shift) >>> stt.page_shift = idx := by
    rw [Nat.shiftLeft_eq, Nat.shiftRight_eq_div_pow]
    exact Nat.mul_div_cancel idx (Nat.two_pow_pos _)
  have hmask : (idx <<< stt.page_shift) &&& ((1 <<< stt.page_shift) - 1) = 0 := by
    rw [Nat.one_shiftLeft, Nat.and_pow_two_sub_one_eq_mod, Nat.shiftLeft_eq]
    exact Nat.mul_mod_left _ _
  have hval : kvmppc_ioba_validate stt (idx <<< stt.page_shift) 1 = HRet.success := by
    rw [ioba_validate_success_iff]
    exact ⟨hmask, by rw [hsr]; omega, by rw [hsr]; omega⟩
  simp only [kvmppc_h_get_tce, hfind, hval, ne_eq, not_true_eq_false, if_false, hsr]
  simp [kvmppc_tce_put]

theorem C8_put_get_roundtrip_witness :
    kvmppc_h_get_tce
      [{ liobn := 1, page_shift := 12, offset := 2, size := 4, groups := [] }]
      (kvmppc_tce_put
        { liobn := 1, page_shift := 12, offset := 2, size := 4, groups := [] }
        (fun _ _ => 7) 3 20481) 1 (3 <<< 12)
      = (HRet.success, Option.some 20481) :=
  C8_put_get_roundtrip _ _ 3 20481 (by decide) (by decide) (by decide)

/-- C3 (amended): during unmap, an absent or real-mode-unaddressable
userspace slot is tolerated as success, but when the slot is available and
the recorded address's owning region is not found in the registry the
operation reports HardwareError — the missing region is an error, not
tolerated. -/
theorem C3_missing_region_amended (env : Env) (w : World) (tbl entry : Nat) :
    (w.pua tbl entry = Option.none →
      kvmppc_rm_tce_iommu_mapped_dec env w tbl entry = (HRet.success, w, []))
    ∧ (∀ v, w.pua tbl entry = Option.some v →
        env.lookup v (1 <<< env.it_page_shift tbl) = Option.none →
        kvmppc_rm_tce_iommu_mapped_dec env w tbl entry = (HRet.hardware, w, [])) := by
  constructor
  · intro h
    simp [kvmppc_rm_tce_iommu_mapped_dec, h]
  · intro v hv hl
    simp [kvmppc_rm_tce_iommu_mapped_dec, hv, hl]

/-- C3 (counterexample): a stored entry with direction fromDevice is
unmapped while the registry no longer contains the recorded address's
region; the operation reports HardwareError, not the success the claim
requires. -/
theorem C3_missing_region_counterexample :
    (kvmppc_rm_tce_iommu_unmap baseEnv
      { baseWorld with hw := fun _ _ => (0, DmaDir.fromDevice),
                       pua := fun _ _ => Option.some 4096 } 0 0).1 = HRet.hardware ∧
    (kvmppc_rm_tce_iommu_unmap baseEnv
      { baseWorld with hw := fun _ _ => (0, DmaDir.fromDevice),
                       pua := fun _ _ => Option.some 4096 } 0 0).1 ≠ HRet.success := by
  decide

theorem C3_missing_region_amended_witness :
    kvmppc_rm_tce_iommu_mapped_dec baseEnv
      { baseWorld with pua := fun _ _ => Option.some 4096 } 3 5
      = (HRet.hardware, { baseWorld with pua := fun _ _ => Option.some 4096 }, []) :=
  (C3_missing_region_amended baseEnv
      { baseWorld with pua := fun _ _ => Option.some 4096 } 3 5).2 4096 rfl rfl

theorem decCnt_incCnt_cnt (w : World) (r : Nat) :
    (decCnt (incCnt w r) r).cnt = w.cnt := by
  funext x
  simp only [decCnt, incCnt]
  by_cases hx : x = r
  · simp [hx]
  · simp [hx]

theorem evShape_xchg_after_inc (r t e : Nat) (ok : Bool) (tail : List Ev) :
    ∀ i x, (Ev.inc r :: Ev.xchg t e ok :: tail).get? i = Option.some x →
      x.isXchg = true →
      ∃ j y, j < i ∧ (Ev.inc r :: Ev.xchg t e ok :: tail).get? j = Option.some y ∧
        y.isInc = true := by
  intro i x h hx
  match i with
  | 0 =>
    simp at h
    subst h
    simp [Ev.isXchg] at hx
  | Nat.succ n => exact ⟨0, Ev.inc r, Nat.succ_pos n, rfl, rfl⟩

theorem evShape_dec_after_xchg (r t e : Nat) (ok : Bool) (tail : List Ev) :
    ∀ i x, (Ev.inc r :: Ev.xchg t e ok :: tail).get? i = Option.some x →
      x.isDec = true →
      ∃ j y, j < i ∧ (Ev.inc r :: Ev.xchg t e ok :: tail).get? j = Option.some y ∧
        y.isXchg = true := by
  intro i x h hd
  match i with
  | 0 =>
    simp at h
    subst h
    simp [Ev.isDec] at hd
  | 1 =>
    simp at h
    subst h
    simp [Ev.isDec] at hd
  | Nat.succ (Nat.succ n) => exact ⟨1, Ev.xchg t e ok, by omega, rfl, rfl⟩

/-- C5: in the pinned-memory map operation, the counter increment for the
new mapping precedes the exchange in the event trace (any exchange event has
an earlier increment event), any counter decrement happens only after the
exchange (never before it), and when the exchange fails the operation leaves
every mapping counter and the hardware table exactly as they were — so there
is no point at which a counter has been released while the hardware table
still points at the region. -/
theorem C5_map_refcount_ordering (env : Env) (w : World) (tbl entry gpa : Nat)
    (dir : DmaDir) :
    (∀ i x, ((kvmppc_rm_tce_iommu_map env w tbl entry gpa dir).2.2).get? i =
        Option.some x → x.isXchg = true →
      ∃ j y, j < i ∧
        ((kvmppc_rm_tce_iommu_map env w tbl entry gpa dir).2.2).get? j =
          Option.some y ∧ y.isInc = true)
    ∧ (∀ i x, ((kvmppc_rm_tce_iommu_map env w tbl entry gpa dir).2.2).get? i =
        Option.some x → x.isDec = true →
      ∃ j y, j < i ∧
        ((kvmppc_rm_tce_iommu_map env w tbl entry gpa dir).2.2).get? j =
          Option.some y ∧ y.isXchg = true)
    ∧ (env.xchgFail tbl entry = true →
        (kvmppc_rm_tce_iommu_map env w tbl entry gpa dir).2.1.cnt = w.cnt ∧
        (kvmppc_rm_tce_iommu_map env w tbl entry gpa dir).2.1.hw = w.hw) := by
  simp only [kvmppc_rm_tce_iommu_map]
  split
  · exact ⟨by intro i x h; simp at h, by intro i x h; simp at h, fun _ => ⟨rfl, rfl⟩⟩
  split
  · exact ⟨by intro i x h; simp at h, by intro i x h; simp at h, fun _ => ⟨rfl, rfl⟩⟩
  split
  · exact ⟨by intro i x h; simp at h, by intro i x h; simp at h, fun _ => ⟨rfl, rfl⟩⟩
  split
  · exact ⟨by intro i x h; simp at h, by intro i x h; simp at h, fun _ => ⟨rfl, rfl⟩⟩
  split
  · exact ⟨by intro i x h; simp at h, by intro i x h; simp at h, fun _ => ⟨rfl, rfl⟩⟩
  split
  next hfail =>
    refine ⟨?_, ?_, ?_⟩
    · intro i x h hx
      exact evShape_xchg_after_inc _ _ _ _ _ i x h hx
    · intro i x h hd
      exact evShape_dec_after_xchg _ _ _ _ _ i x h hd
    · intro _
      exact ⟨decCnt_incCnt_cnt w _, rfl⟩
  next hfail =>
    refine ⟨?_, ?_, ?_⟩
    · intro i x h hx
      exact evShape_xchg_after_inc _ _ _ _ _ i x h hx
    · intro i x h hd
      exact evShape_dec_after_xchg _ _ _ _ _ i x h hd
    · intro hc
      exact absurd hc (by simpa using hfail)

theorem C5_map_refcount_ordering_witness :
    (∃ j y, j < 1 ∧
      ((kvmppc_rm_tce_iommu_map envC5 wC5 0 0 4096 DmaDir.fromDevice).2.2).get? j =
        Option.some y ∧ y.isInc = true)
    ∧ (∃ j y, j < 2 ∧
      ((kvmppc_rm_tce_iommu_map envC5 wC5 0 0 4096 DmaDir.fromDevice).2.2).get? j =
        Option.some y ∧ y.isXchg = true)
    ∧ (kvmppc_rm_tce_iommu_map { envC5 with xchgFail := fun _ _ => true }
        wC5 0 0 4096 DmaDir.fromDevice).2.1.cnt = wC5.cnt :=
  ⟨(C5_map_refcount_ordering envC5 wC5 0 0 4096 DmaDir.fromDevice).1 1
      (Ev.xchg 0 0 true) (by decide) (by decide),
   (C5_map_refcount_ordering envC5 wC5 0 0 4096 DmaDir.fromDevice).2.1 2
      (Ev.dec 5) (by decide) (by decide),
   ((C5_map_refcount_ordering { envC5 with xchgFail := fun _ _ => true }
      wC5 0 0 4096 DmaDir.fromDevice).2.2 rfl).1⟩

theorem setHw_store (w : World) (t e : Nat) (v : Nat × DmaDir) :
    (setHw w t e v).store = w.store := rfl

theorem setPua_store (w : World) (t e : Nat) (v : Option Nat) :
    (setPua w t e v).store = w.store := rfl

theorem store_mapped_dec (env : Env) (w : World) (tbl e : Nat) :
    (kvmppc_rm_tce_iommu_mapped_dec env w tbl e).2.1.store = w.store := by
  simp only [kvmppc_rm_tce_iommu_mapped_dec]
  split
  · rfl
  · split
    · rfl
    · rfl

theorem store_unmap (env : Env) (w : World) (tbl e : Nat) :
    (kvmppc_rm_tce_iommu_unmap env w tbl e).2.1.store = w.store := by
  simp only [kvmppc_rm_tce_iommu_unmap]
  split
  · rfl
  · split
    · rfl
    · rw [store_mapped_dec]
      rfl

theorem store_map (env : Env) (w : World) (tbl entry gpa : Nat) (dir : DmaDir) :
    (kvmppc_rm_tce_iommu_map env w tbl entry gpa dir).2.1.store = w.store := by
  simp only [kvmppc_rm_tce_iommu_map]
  split
  · rfl
  split
  · rfl
  split
  · rfl
  split
  · rfl
  split
  · rfl
  split
  · rfl
  · rw [setPua_store]
    split
    · rfl
    · rw [store_mapped_dec]
      rfl

theorem store_put_tce_iommu (env : Env) (w : World) (tbl liobn ioba tce : Nat) :
    (kvmppc_rm_h_put_tce_iommu env w tbl liobn ioba tce).2.1.store = w.store := by
  simp only [kvmppc_rm_h_put_tce_iommu]
  split
  · split
    · rfl
    · exact store_unmap env w tbl _
  · split
    · rfl
    · exact store_map env w tbl _ _ _

theorem store_putTceGroupsLoop (env : Env) (liobn ioba tce : Nat) :
    ∀ (gs : List Nat) (t : Option Nat) (w : World),
      (putTceGroupsLoop env liobn ioba tce w gs t).2.1.store = w.store := by
  intro gs
  induction gs with
  | nil => intro t w; rfl
  | cons g rest ih =>
    intro t w
    simp only [putTceGroupsLoop]
    split
    · exact ih t w
    · split
      · exact store_put_tce_iommu env w g liobn ioba tce
      · rw [ih]
        exact store_put_tce_iommu env w g liobn ioba tce

/-- C4: Put writes the raw entry into the entry store only when the
per-group operation succeeded for every attached device group (the written
store is exactly the groups-final store updated at the one index); if any
device group fails, the call returns that failure with the partially-updated
group state as is (no rollback) and the entry store unmodified. -/
theorem C4_put_gates_entry_store (env : Env) (w : World) (tables : List Stt)
    (stt : Stt) (liobn ioba tce : Nat)
    (hf : kvmppc_find_table tables liobn = Option.some stt)
    (h1 : kvmppc_ioba_validate stt ioba 1 = HRet.success)
    (h2 : kvmppc_tce_validate stt tce = HRet.success) :
    ((putTceGroupsLoop env liobn ioba tce w stt.groups Option.none).1 = HRet.success →
      kvmppc_rm_h_put_tce env w tables liobn ioba tce =
        (HRet.success,
         { (putTceGroupsLoop env liobn ioba tce w stt.groups Option.none).2.1 with
             store := kvmppc_tce_put stt
               (putTceGroupsLoop env liobn ioba tce w stt.groups Option.none).2.1.store
               (ioba >>> stt.page_shift) tce },
         (putTceGroupsLoop env liobn ioba tce w stt.groups Option.none).2.2))
    ∧ ((putTceGroupsLoop env liobn ioba tce w stt.groups Option.none).1 ≠ HRet.success →
      kvmppc_rm_h_put_tce env w tables liobn ioba tce =
        putTceGroupsLoop env liobn ioba tce w stt.groups Option.none ∧
      (putTceGroupsLoop env liobn ioba tce w stt.groups Option.none).2.1.store
        = w.store) := by
  constructor
  · intro hs
    simp only [kvmppc_rm_h_put_tce, hf]
    rw [if_neg (by simp [h1]), if_neg (by simp [h2]), if_neg (by simp [hs]), hs]
  · intro hn
    refine ⟨?_, store_putTceGroupsLoop env liobn ioba tce stt.groups Option.none w⟩
    simp only [kvmppc_rm_h_put_tce, hf]
    rw [if_neg (by simp [h1]), if_neg (by simp [h2]), if_pos hn]

theorem C4_put_gates_entry_store_witness :
    kvmppc_rm_h_put_tce envC4 baseWorld [sttC4] 7 0 12289 =
      (HRet.success,
       { (putTceGroupsLoop envC4 7 0 12289 baseWorld sttC4.groups Option.none).2.1 with
           store := kvmppc_tce_put sttC4
             (putTceGroupsLoop envC4 7 0 12289 baseWorld sttC4.groups Option.none).2.1.store
             (0 >>> sttC4.page_shift) 12289 },
       (putTceGroupsLoop envC4 7 0 12289 baseWorld sttC4.groups Option.none).2.2) :=
  (C4_put_gates_entry_store envC4 baseWorld [sttC4] sttC4 7 0 12289 rfl
    (by decide) (by decide)).1 (by decide)

/-- C6: once the table is resolved, a PutIndirect with npages > 512 returns
ParameterError with the world unchanged and an empty event trace: no list
resolution and no list-element read happens, for every possible environment
(so the result cannot depend on the list contents). -/
theorem C6_indirect_cap (env : Env) (w : World) (tables : List Stt) (stt : Stt)
    (liobn ioba tce_list npages : Nat)
    (hf : kvmppc_find_table tables liobn = Option.some stt)
    (hn : npages > 512) :
    kvmppc_rm_h_put_tce_indirect env w tables liobn ioba tce_list npages =
      (HRet.parameter, w, []) := by
  simp only [kvmppc_rm_h_put_tce_indirect, hf]
  rw [if_pos hn]

theorem C6_indirect_cap_witness :
    kvmppc_rm_h_put_tce_indirect baseEnv baseWorld [sttC4] 7 0 0 513 =
      (HRet.parameter, baseWorld, []) :=
  C6_indirect_cap baseEnv baseWorld [sttC4] sttC4 7 0 0 513 rfl (by decide)

/-- C10: once the table is resolved, a PutIndirect whose list address has
any bit set below the 4K page mask returns ParameterError with the world
unchanged and an empty event trace — the list is neither resolved nor read —
for every environment, although the spec states no alignment requirement on
the list address. -/
theorem C10_list_alignment (env : Env) (w : World) (tables : List Stt) (stt : Stt)
    (liobn ioba tce_list npages : Nat)
    (hf : kvmppc_find_table tables liobn = Option.some stt)
    (hm : tce_list &&& 4095 ≠ 0) :
    kvmppc_rm_h_put_tce_indirect env w tables liobn ioba tce_list npages =
      (HRet.parameter, w, []) := by
  simp only [kvmppc_rm_h_put_tce_indirect, hf]
  by_cases hn : npages > 512
  · rw [if_pos hn]
  · rw [if_neg hn, if_pos hm]

theorem C10_list_alignment_witness :
    kvmppc_rm_h_put_tce_indirect baseEnv baseWorld [sttC4] 7 0 4097 1 =
      (HRet.parameter, baseWorld, []) :=
  C10_list_alignment baseEnv baseWorld [sttC4] sttC4 7 0 4097 1 rfl (by decide)

theorem store_indirectMapLoop (env : Env) (tbl entry tces : Nat) :
    ∀ (n i : Nat) (w : World),
      (indirectMapLoop env tbl entry tces w i n).2.1.store = w.store := by
  intro n
  induction n with
  | zero => intro i w; rfl
  | succ n ih =>
    intro i w
    simp only [indirectMapLoop]
    split
    · exact store_map env w tbl _ _ _
    · rw [ih]
      exact store_map env w tbl _ _ _

theorem store_indirect_iommu (env : Env) (w : World) (tbl ioba tces npages : Nat) :
    (kvmppc_rm_h_put_tce_indirect_iommu env w tbl ioba tces npages).2.1.store
      = w.store := by
  simp only [kvmppc_rm_h_put_tce_indirect_iommu]
  split
  · rfl
  · exact store_indirectMapLoop env tbl _ tces npages 0 w

theorem store_indirectGroupsLoop (env : Env) (ioba tces npages : Nat) :
    ∀ (gs : List Nat) (t : Option Nat) (w : World),
      (indirectGroupsLoop env ioba tces npages w gs t).2.1.store = w.store := by
  intro gs
  induction gs with
  | nil => intro t w; rfl
  | cons g rest ih =>
    intro t w
    simp only [indirectGroupsLoop]
    split
    · exact ih t w
    · split
      · exact store_indirect_iommu env w g ioba tces npages
      · rw [ih]
        exact store_indirect_iommu env w g ioba tces npages

theorem indirectCheckLoop_fails (env : Env) (tbl ioba tces : Nat) :
    ∀ (n i : Nat),
      (∃ k, i ≤ k ∧ k < i + n ∧
        env.putParamOk tbl (ioba + (k <<< env.it_page_shift tbl))
          (env.mem64 (tces + 8 * k) &&& compl64 (TCE_PCI_READ ||| TCE_PCI_WRITE))
          = false) →
      (indirectCheckLoop env tbl ioba tces i n).1 = HRet.parameter := by
  intro n
  induction n with
  | zero =>
    rintro i ⟨k, hik, hkn, _⟩
    omega
  | succ n ih =>
    rintro i ⟨k, hik, hkn, hbad⟩
    simp only [indirectCheckLoop]
    split
    · rfl
    next hok =>
      refine ih (i + 1) ⟨k, ?_, by omega, hbad⟩
      rcases Nat.eq_or_lt_of_le hik with heq | hlt
      · subst heq
        exact absurd hbad hok
      · omega

/-- C2 (amended): in PutIndirect, each device group runs a validation pass
over every entry before performing any of its own mutations, and a group in
which some entry fails validation mutates nothing and reports ParameterError;
the per-group phase never touches the entry store; and when the per-group
phase fails (on the preregistered path), the dispatcher returns that failure
with the entry store unmodified — but the state reached by groups processed
earlier in the traversal is kept as is, so a mapping already installed by an
earlier group stays installed (see the counterexample for the original
claim). -/
theorem C2_indirect_two_pass_amended :
    (∀ (env : Env) (w : World) (tbl ioba tces npages : Nat),
      (∃ k, k < npages ∧
        env.putParamOk tbl (ioba + (k <<< env.it_page_shift tbl))
          (env.mem64 (tces + 8 * k) &&& compl64 (TCE_PCI_READ ||| TCE_PCI_WRITE))
          = false) →
      (kvmppc_rm_h_put_tce_indirect_iommu env w tbl ioba tces npages).1
          = HRet.parameter ∧
      (kvmppc_rm_h_put_tce_indirect_iommu env w tbl ioba tces npages).2.1 = w)
    ∧ (∀ (env : Env) (ioba tces npages : Nat) (gs : List Nat) (t : Option Nat)
        (w : World),
        (indirectGroupsLoop env ioba tces npages w gs t).2.1.store = w.store)
    ∧ (∀ (env : Env) (w : World) (tables : List Stt) (stt : Stt)
        (liobn ioba tce_list npages ua r tces : Nat),
        kvmppc_find_table tables liobn = Option.some stt →
        ¬ npages > 512 →
        tce_list &&& 4095 = 0 →
        kvmppc_ioba_validate stt ioba npages = HRet.success →
        env.preregistered = true →
        env.gpaToUa tce_list = Option.some ua →
        env.lookup ua 4096 = Option.some r →
        env.uaToHpa r ua = Option.some tces →
        (indirectGroupsLoop env ioba tces npages w stt.groups Option.none).1
            ≠ HRet.success →
        kvmppc_rm_h_put_tce_indirect env w tables liobn ioba tce_list npages =
          ((indirectGroupsLoop env ioba tces npages w stt.groups Option.none).1,
           (indirectGroupsLoop env ioba tces npages w stt.groups Option.none).2.1,
           Ev.resolveList ::
             (indirectGroupsLoop env ioba tces npages w stt.groups Option.none).2.2) ∧
        (kvmppc_rm_h_put_tce_indirect env w tables liobn ioba tce_list
            npages).2.1.store = w.store) := by
  refine ⟨?_, ?_, ?_⟩
  · intro env w tbl ioba tces npages ⟨k, hk, hbad⟩
    have hchk : (indirectCheckLoop env tbl ioba tces 0 npages).1 = HRet.parameter :=
      indirectCheckLoop_fails env tbl ioba tces npages 0 ⟨k, by omega, by omega, hbad⟩
    simp only [kvmppc_rm_h_put_tce_indirect_iommu]
    rw [if_pos (by simp [hchk])]
    exact ⟨hchk, rfl⟩
  · exact fun env ioba tces npages gs t w =>
      store_indirectGroupsLoop env ioba tces npages gs t w
  · intro env w tables stt liobn ioba tce_list npages ua r tces hf hn hal hv hpre
      hua hlk hhpa hns
    have hmain : kvmppc_rm_h_put_tce_indirect env w tables liobn ioba tce_list npages =
        ((indirectGroupsLoop env ioba tces npages w stt.groups Option.none).1,
         (indirectGroupsLoop env ioba tces npages w stt.groups Option.none).2.1,
         Ev.resolveList ::
           (indirectGroupsLoop env ioba tces npages w stt.groups Option.none).2.2) := by
      simp only [kvmppc_rm_h_put_tce_indirect, hf]
      rw [if_neg hn, if_neg (by simp [hal]), if_neg (by simp [hv]), if_pos (by simp [hpre])]
      simp only [hua, hlk, hhpa]
      rw [if_pos hns]
    refine ⟨hmain, ?_⟩
    rw [hmain]
    exact store_indirectGroupsLoop env ioba tces npages stt.groups Option.none w

/-- C2 (counterexample): a PutIndirect over two device groups where group 2
fails validation while group 1 passes: the call returns ParameterError, yet
group 1's mapping has been installed (its hardware entry now carries a
direction other than none and the region's mapping counter was raised),
contradicting "no device group's mapping has been installed". -/
theorem C2_counterexample :
    (kvmppc_rm_h_put_tce_indirect envC2 baseWorld [sttC2] 9 0 65536 1).1
        = HRet.parameter ∧
    ((kvmppc_rm_h_put_tce_indirect envC2 baseWorld [sttC2] 9 0 65536 1).2.1.hw 1 0).2
        ≠ DmaDir.none ∧
    (kvmppc_rm_h_put_tce_indirect envC2 baseWorld [sttC2] 9 0 65536 1).2.1.cnt 5
        = 1 := by
  decide

theorem C2_indirect_two_pass_amended_witness :
    ((kvmppc_rm_h_put_tce_indirect_iommu envC2 baseWorld 2 0 65536 1).1
        = HRet.parameter ∧
     (kvmppc_rm_h_put_tce_indirect_iommu envC2 baseWorld 2 0 65536 1).2.1
        = baseWorld) ∧
    (kvmppc_rm_h_put_tce_indirect envC2 baseWorld [sttC2] 9 0 65536 1 =
      ((indirectGroupsLoop envC2 0 65536 1 baseWorld sttC2.groups Option.none).1,
       (indirectGroupsLoop envC2 0 65536 1 baseWorld sttC2.groups Option.none).2.1,
       Ev.resolveList ::
         (indirectGroupsLoop envC2 0 65536 1 baseWorld sttC2.groups Option.none).2.2) ∧
     (kvmppc_rm_h_put_tce_indirect envC2 baseWorld [sttC2] 9 0 65536 1).2.1.store
        = baseWorld.store) :=
  ⟨C2_indirect_two_pass_amended.1 envC2 baseWorld 2 0 65536 1
      ⟨0, by decide, by decide⟩,
   C2_indirect_two_pass_amended.2.2 envC2 baseWorld [sttC2] sttC2 9 0 65536 1
      65536 5 65536 rfl (by decide) (by decide) (by decide) rfl rfl rfl rfl
      (by decide)⟩

theorem tce_validate_zero (stt : Stt) : kvmppc_tce_validate stt 0 = HRet.success := by
  simp [kvmppc_tce_validate]

theorem store_stuffUnmapLoop (env : Env) (tbl entry : Nat) :
    ∀ (n i : Nat) (w : World),
      (stuffUnmapLoop env tbl entry w i n).1.store = w.store := by
  intro n
  induction n with
  | zero => intro i w; rfl
  | succ n ih =>
    intro i w
    simp only [stuffUnmapLoop]
    rw [ih]
    exact store_unmap env w tbl _

theorem store_stuff_iommu (env : Env) (w : World) (tbl liobn ioba value npages : Nat) :
    (kvmppc_rm_h_stuff_tce_iommu env w tbl liobn ioba value npages).2.1.store
      = w.store := by
  simp only [kvmppc_rm_h_stuff_tce_iommu]
  split
  · rfl
  · exact store_stuffUnmapLoop env tbl _ npages 0 w

theorem stuff_iommu_success (env : Env) (w : World) (tbl liobn ioba value npages : Nat)
    (hc : env.clearParamOk tbl ioba value npages = true) :
    (kvmppc_rm_h_stuff_tce_iommu env w tbl liobn ioba value npages).1
      = HRet.success := by
  simp only [kvmppc_rm_h_stuff_tce_iommu]
  rw [if_neg (by simp [hc])]

theorem store_stuffGroupsLoop (env : Env) (liobn ioba value npages : Nat) :
    ∀ (gs : List Nat) (t : Option Nat) (w : World),
      (stuffGroupsLoop env liobn ioba value npages w gs t).2.1.store = w.store := by
  intro gs
  induction gs with
  | nil => intro t w; rfl
  | cons g rest ih =>
    intro t w
    simp only [stuffGroupsLoop]
    split
    · exact ih t w
    · split
      · exact store_stuff_iommu env w g liobn ioba value npages
      · rw [ih]
        exact store_stuff_iommu env w g liobn ioba value npages

theorem stuffGroupsLoop_success (env : Env) (liobn ioba value npages : Nat) :
    ∀ (gs : List Nat), (∀ g ∈ gs, env.clearParamOk g ioba value npages = true) →
      ∀ (t : Option Nat) (w : World),
        (stuffGroupsLoop env liobn ioba value npages w gs t).1 = HRet.success := by
  intro gs
  induction gs with
  | nil => intro _ t w; rfl
  | cons g rest ih =>
    intro hg t w
    simp only [stuffGroupsLoop]
    split
    · exact ih (fun x hx => hg x (List.mem_cons_of_mem g hx)) t w
    · split
      next hfail =>
        exact absurd (stuff_iommu_success env w g liobn ioba value npages
          (hg g (List.mem_cons_self g rest))) hfail
      · exact ih (fun x hx => hg x (List.mem_cons_of_mem g hx)) (Option.some g) _

theorem stuff_tce_success_eq (env : Env) (w : World) (tables : List Stt)
    (stt : Stt) (liobn ioba npages : Nat)
    (hf : kvmppc_find_table tables liobn = Option.some stt)
    (hv : kvmppc_ioba_validate stt ioba npages = HRet.success)
    (hg : ∀ g ∈ stt.groups, env.clearParamOk g ioba 0 npages = true) :
    kvmppc_rm_h_stuff_tce env w tables liobn ioba 0 npages =
      (HRet.success,
       { (stuffGroupsLoop env liobn ioba 0 npages w stt.groups Option.none).2.1 with
         store := stuffPutLoop stt 0
           (stuffGroupsLoop env liobn ioba 0 npages w stt.groups
             Option.none).2.1.store ioba npages },
       (stuffGroupsLoop env liobn ioba 0 npages w stt.groups Option.none).2.2) := by
  simp only [kvmppc_rm_h_stuff_tce, hf]
  rw [if_neg (by simp [hv]),
      if_neg (by simp [tce_validate_zero stt]),
      if_neg (by simp [stuffGroupsLoop_success env liobn ioba 0 npages stt.groups hg
        Option.none w])]

theorem stuffPutLoop_read (stt : Stt) (value : Nat) :
    ∀ (n : Nat) (st : Store) (d c s : Nat),
      stuffPutLoop stt value st ((stt.offset + d) <<< stt.page_shift) n c s =
        if s < TCES_PER_PAGE ∧ d ≤ c * TCES_PER_PAGE + s ∧
            c * TCES_PER_PAGE + s < d + n
        then value else st c s := by
  intro n
  induction n with
  | zero =>
    intro st d c s
    have hT : TCES_PER_PAGE = 512 := rfl
    rw [if_neg (by rw [hT]; omega)]
    rfl
  | succ n ih =>
    intro st d c s
    have e1 : ((stt.offset + d) <<< stt.page_shift) >>> stt.page_shift
        = stt.offset + d := by
      rw [Nat.shiftLeft_eq, Nat.shiftRight_eq_div_pow]
      exact Nat.mul_div_cancel _ (Nat.two_pow_pos _)
    have e2 : (stt.offset + d) <<< stt.page_shift + (1 <<< stt.page_shift)
        = (stt.offset + (d + 1)) <<< stt.page_shift := by
      simp only [Nat.shiftLeft_eq]
      ring
    simp only [stuffPutLoop, e1, e2]
    rw [ih]
    simp only [kvmppc_tce_put, Nat.add_sub_cancel_left]
    have hT : TCES_PER_PAGE = 512 := rfl
    rw [hT] at *
    have hdm : 512 * (d / 512) + d % 512 = d := Nat.div_add_mod d 512
    have hml : d % 512 < 512 := Nat.mod_lt _ (by omega)
    split_ifs <;> omega

/-- C9: for a valid (aligned, in-bounds, nonempty) range whose device groups
pass the clear parameter check, stuff(bus, ioba, 0, n) succeeds, a Get on
every touched index afterwards returns 0, and running the same stuff a
second time succeeds and produces exactly the same entry store. -/
theorem C9_stuff_clear_idempotent (env : Env) (w : World) (tables : List Stt)
    (stt : Stt) (liobn d npages : Nat)
    (hf : kvmppc_find_table tables liobn = Option.some stt)
    (hn : 0 < npages)
    (hrange : d + npages ≤ stt.size)
    (hg : ∀ g ∈ stt.groups,
      env.clearParamOk g ((stt.offset + d) <<< stt.page_shift) 0 npages = true) :
    (kvmppc_rm_h_stuff_tce env w tables liobn
        ((stt.offset + d) <<< stt.page_shift) 0 npages).1 = HRet.success ∧
    (∀ i, i < npages →
      kvmppc_h_get_tce tables
        (kvmppc_rm_h_stuff_tce env w tables liobn
          ((stt.offset + d) <<< stt.page_shift) 0 npages).2.1.store
        liobn ((stt.offset + (d + i)) <<< stt.page_shift)
        = (HRet.success, Option.some 0)) ∧
    (kvmppc_rm_h_stuff_tce env
        (kvmppc_rm_h_stuff_tce env w tables liobn
          ((stt.offset + d) <<< stt.page_shift) 0 npages).2.1
        tables liobn ((stt.offset + d) <<< stt.page_shift) 0 npages).1
      = HRet.success ∧
    (kvmppc_rm_h_stuff_tce env
        (kvmppc_rm_h_stuff_tce env w tables liobn
          ((stt.offset + d) <<< stt.page_shift) 0 npages).2.1
        tables liobn ((stt.offset + d) <<< stt.page_shift) 0 npages).2.1.store
      = (kvmppc_rm_h_stuff_tce env w tables liobn
          ((stt.offset + d) <<< stt.page_shift) 0 npages).2.1.store := by
  have hTpos : 0 < TCES_PER_PAGE := by decide
  have e1 : ∀ x : Nat,
      ((stt.offset + x) <<< stt.page_shift) >>> stt.page_shift = stt.offset + x := by
    intro x
    rw [Nat.shiftLeft_eq, Nat.shiftRight_eq_div_pow]
    exact Nat.mul_div_cancel _ (Nat.two_pow_pos _)
  have hmask : ∀ x : Nat,
      ((stt.offset + x) <<< stt.page_shift) &&& ((1 <<< stt.page_shift) - 1) = 0 := by
    intro x
    rw [Nat.one_shiftLeft, Nat.and_pow_two_sub_one_eq_mod, Nat.shiftLeft_eq]
    exact Nat.mul_mod_left _ _
  have hv : kvmppc_ioba_validate stt ((stt.offset + d) <<< stt.page_shift) npages
      = HRet.success := by
    rw [ioba_validate_success_iff]
    exact ⟨hmask d, by rw [e1]; omega, by rw [e1]; omega⟩
  have heq1 := stuff_tce_success_eq env w tables stt liobn
    ((stt.offset + d) <<< stt.page_shift) npages hf hv hg
  have hst1 : (kvmppc_rm_h_stuff_tce env w tables liobn
      ((stt.offset + d) <<< stt.page_shift) 0 npages).2.1.store
      = stuffPutLoop stt 0 w.store ((stt.offset + d) <<< stt.page_shift) npages := by
    rw [heq1]
    rw [show ∀ (a : World) (r : HRet) (l : List Ev), (r, a, l).2.1 = a from
      fun _ _ _ => rfl]
    rw [store_stuffGroupsLoop]
  have heq2 := stuff_tce_success_eq env
    (kvmppc_rm_h_stuff_tce env w tables liobn
      ((stt.offset + d) <<< stt.page_shift) 0 npages).2.1 tables stt liobn
    ((stt.offset + d) <<< stt.page_shift) npages hf hv hg
  refine ⟨by rw [heq1], ?_, by rw [heq2], ?_⟩
  · intro i hi
    rw [hst1]
    have hvi : kvmppc_ioba_validate stt ((stt.offset + (d + i)) <<< stt.page_shift) 1
        = HRet.success := by
      rw [ioba_validate_success_iff]
      exact ⟨hmask (d + i), by rw [e1]; omega, by rw [e1]; omega⟩
    simp only [kvmppc_h_get_tce, hf, hvi, ne_eq, not_true_eq_false, if_false, e1]
    rw [Nat.add_sub_cancel_left]
    rw [stuffPutLoop_read]
    have hdm2 : (d + i) / TCES_PER_PAGE * TCES_PER_PAGE + (d + i) % TCES_PER_PAGE
        = d + i := by
      rw [Nat.mul_comm]
      exact Nat.div_add_mod _ _
    rw [if_pos ⟨Nat.mod_lt _ hTpos, by rw [hdm2]; omega, by rw [hdm2]; omega⟩]
  · have hst2 : (kvmppc_rm_h_stuff_tce env
        (kvmppc_rm_h_stuff_tce env w tables liobn
          ((stt.offset + d) <<< stt.page_shift) 0 npages).2.1
        tables liobn ((stt.offset + d) <<< stt.page_shift) 0 npages).2.1.store
        = stuffPutLoop stt 0
          (kvmppc_rm_h_stuff_tce env w tables liobn
            ((stt.offset + d) <<< stt.page_shift) 0 npages).2.1.store
          ((stt.offset + d) <<< stt.page_shift) npages := by
      rw [heq2]
      rw [show ∀ (a : World) (r : HRet) (l : List Ev), (r, a, l).2.1 = a from
        fun _ _ _ => rfl]
      rw [store_stuffGroupsLoop]
    rw [hst2, hst1]
    funext c s
    rw [stuffPutLoop_read, stuffPutLoop_read]
    by_cases hcond : s < TCES_PER_PAGE ∧ d ≤ c * TCES_PER_PAGE + s ∧
        c * TCES_PER_PAGE + s < d + npages
    · simp [hcond]
    · simp [hcond]

theorem C9_stuff_clear_idempotent_witness :
    (kvmppc_rm_h_stuff_tce baseEnv baseWorld [sttC9] 11
        ((sttC9.offset + 2) <<< sttC9.page_shift) 0 3).1 = HRet.success ∧
    kvmppc_h_get_tce [sttC9]
      (kvmppc_rm_h_stuff_tce baseEnv baseWorld [sttC9] 11
        ((sttC9.offset + 2) <<< sttC9.page_shift) 0 3).2.1.store
      11 ((sttC9.offset + (2 + 1)) <<< sttC9.page_shift)
      = (HRet.success, Option.some 0) ∧
    (kvmppc_rm_h_stuff_tce baseEnv
        (kvmppc_rm_h_stuff_tce baseEnv baseWorld [sttC9] 11
          ((sttC9.offset + 2) <<< sttC9.page_shift) 0 3).2.1
        [sttC9] 11 ((sttC9.offset + 2) <<< sttC9.page_shift) 0 3).2.1.store
      = (kvmppc_rm_h_stuff_tce baseEnv baseWorld [sttC9] 11
          ((sttC9.offset + 2) <<< sttC9.page_shift) 0 3).2.1.store :=
  ⟨(C9_stuff_clear_idempotent baseEnv baseWorld [sttC9] sttC9 11 2 3 rfl
      (by decide) (by decide) (fun g hg => rfl)).1,
   (C9_stuff_clear_idempotent baseEnv baseWorld [sttC9] sttC9 11 2 3 rfl
      (by decide) (by decide) (fun g hg => rfl)).2.1 1 (by decide),
   (C9_stuff_clear_idempotent baseEnv baseWorld [sttC9] sttC9 11 2 3 rfl
      (by decide) (by decide) (fun g hg => rfl)).2.2.2⟩

theorem ipiTargets_count (x : Nat) :
    ∀ active cpu : Nat, (ipiTargets cpu active).count x =
      if cpu ≤ x ∧ active.testBit (x - cpu) = true then 1 else 0 := by
  intro active
  induction active using Nat.strong_induction_on with
  | _ active ih =>
    intro cpu
    rw [ipiTargets]
    split
    next h0 =>
      subst h0
      simp [Nat.zero_testBit]
    next h0 =>
      rw [List.count_append,
        ih (active / 2) (Nat.div_lt_self (Nat.pos_of_ne_zero h0) Nat.one_lt_two) (cpu + 1)]
      rcases Nat.lt_trichotomy x cpu with hlt | heq | hgt
      · by_cases hm : active % 2 = 1 <;>
          simp [hm, List.count_cons, List.count_nil,
            show ¬(cpu ≤ x) from by omega, show ¬(cpu + 1 ≤ x) from by omega,
            show ¬(cpu = x) from by omega]
      · subst heq
        by_cases hm : active % 2 = 1 <;>
          simp [hm, List.count_cons, List.count_nil, Nat.testBit_zero,
            show ¬(x + 1 ≤ x) from by omega]
      · have hx : x - cpu = (x - (cpu + 1)) + 1 := by omega
        rw [hx, Nat.testBit_add_one]
        by_cases hm : active % 2 = 1 <;>
          simp [hm, List.count_cons, List.count_nil,
            show cpu ≤ x from by omega, show cpu + 1 ≤ x from by omega,
            show ¬(cpu = x) from by omega]

theorem compl64_testBit (m u : Nat) (hu : u < 64) :
    (compl64 (1 <<< m)).testBit u = decide (u ≠ m) := by
  rw [compl64, Nat.one_shiftLeft, Nat.testBit_xor, Nat.testBit_two_pow_sub_one,
    Nat.testBit_two_pow]
  by_cases hm : m = u
  · subst hm
    simp [hu]
  · simp [hm, hu, Ne.symm hm]

/-- C7: when the acknowledgement bits observed before this thread's update
are all zero and the trap is not the hypervisor-decrementer reason, exactly
the sibling threads present in the observed entry map other than the caller
receive one notification each (count one per such thread, zero for the
caller and for every other cpu); when some acknowledgement bit was already
set, or the trap is the hypervisor-decrementer reason, the caller sends no
notification to its own vcore's siblings. -/
theorem C7_commence_exit_notifications (eemap pcpu ptid trap : Nat)
    (sip : Option (List (Nat × Nat))) (hp : ptid < 8) :
    (eemap >>> 8 = 0 → trap ≠ BOOK3S_INTERRUPT_HV_DECREMENTER →
      (∀ t : Nat,
        ((kvmhv_commence_exit eemap pcpu ptid trap sip).2.1).count (pcpu + t) =
          if eemap.testBit t = true ∧ t ≠ ptid then 1 else 0) ∧
      (∀ x : Nat, x < pcpu →
        ((kvmhv_commence_exit eemap pcpu ptid trap sip).2.1).count x = 0))
    ∧ ((eemap >>> 8 ≠ 0 ∨ trap = BOOK3S_INTERRUPT_HV_DECREMENTER) →
      (kvmhv_commence_exit eemap pcpu ptid trap sip).2.1 = []) := by
  have hown : ∀ (h8 : eemap >>> 8 = 0) (ht : trap ≠ BOOK3S_INTERRUPT_HV_DECREMENTER),
      (kvmhv_commence_exit eemap pcpu ptid trap sip).2.1 =
        kvmhv_interrupt_vcore pcpu (eemap &&& compl64 (1 <<< ptid)) := by
    intro h8 ht
    simp only [kvmhv_commence_exit]
    rw [if_neg (by simp [h8]), if_pos ht]
    cases sip <;> rfl
  have hlt256 : eemap >>> 8 = 0 → eemap < 256 := by
    intro h8
    rw [Nat.shiftRight_eq_div_pow] at h8
    have h2 : (2 : Nat) ^ 8 = 256 := by norm_num
    omega
  constructor
  · intro h8 ht
    constructor
    · intro t
      rw [hown h8 ht]
      rw [kvmhv_interrupt_vcore, ipiTargets_count (pcpu + t)]
      rw [show pcpu + t - pcpu = t from by omega]
      by_cases ht8 : t < 8
      · rw [Nat.testBit_and, compl64_testBit ptid t (by omega)]
        by_cases hb : eemap.testBit t = true <;> by_cases hne : t = ptid <;>
          simp [hb, hne, Nat.le_add_right]
      · have hb1 : eemap.testBit t = false :=
          Nat.testBit_lt_two_pow (by
            have := hlt256 h8
            have h2 : 256 ≤ 2 ^ t := by
              calc (256 : Nat) = 2 ^ 8 := by norm_num
              _ ≤ 2 ^ t := Nat.pow_le_pow_right (by omega) (by omega)
            omega)
        have hb2 : (eemap &&& compl64 (1 <<< ptid)).testBit t = false :=
          Nat.testBit_lt_two_pow (by
            have hle : eemap &&& compl64 (1 <<< ptid) ≤ eemap := Nat.and_le_left
            have := hlt256 h8
            have h2 : 256 ≤ 2 ^ t := by
              calc (256 : Nat) = 2 ^ 8 := by norm_num
              _ ≤ 2 ^ t := Nat.pow_le_pow_right (by omega) (by omega)
            omega)
        simp [hb1, hb2]
    · intro x hx
      rw [hown h8 ht]
      rw [kvmhv_interrupt_vcore, ipiTargets_count x]
      simp [show ¬(pcpu ≤ x) from by omega]
  · intro h
    simp only [kvmhv_commence_exit]
    by_cases h8 : eemap >>> 8 ≠ 0
    · rw [if_pos h8]
    · rw [if_neg h8]
      have ht : trap = BOOK3S_INTERRUPT_HV_DECREMENTER := by
        rcases h with h | h
        · exact absurd h h8
        · exact h
      rw [if_neg (by simp [ht])]
      cases sip <;> rfl

theorem C7_commence_exit_notifications_witness :
    ((kvmhv_commence_exit 11 40 0 0 Option.none).2.1).count 41 = 1 ∧
    ((kvmhv_commence_exit 11 40 0 0 Option.none).2.1).count 42 = 0 ∧
    ((kvmhv_commence_exit 11 40 0 0 Option.none).2.1).count 43 = 1 ∧
    ((kvmhv_commence_exit 11 40 0 0 Option.none).2.1).count 40 = 0 ∧
    (kvmhv_commence_exit 256 40 0 0 Option.none).2.1 = [] :=
  ⟨(((C7_commence_exit_notifications 11 40 0 0 Option.none (by decide)).1 rfl
      (by decide)).1 1).trans (by decide),
   (((C7_commence_exit_notifications 11 40 0 0 Option.none (by decide)).1 rfl
      (by decide)).1 2).trans (by decide),
   (((C7_commence_exit_notifications 11 40 0 0 Option.none (by decide)).1 rfl
      (by decide)).1 3).trans (by decide),
   (((C7_commence_exit_notifications 11 40 0 0 Option.none (by decide)).1 rfl
      (by decide)).1 0).trans (by decide),
   (C7_commence_exit_notifications 256 40 0 0 Option.none (by decide)).2
      (Or.inl (by decide))⟩
